import Mathlib

/-!
Verification of the SSDP discovery client (`src/search/mod.rs`).

The development shallowly embeds the client's core:

* `SearchTarget` with its wire-form `encode`/`decode` (the `search_target`
  module is re-exported by `src/search/mod.rs`; its body is not part of the
  sources at hand, so it is modelled from the specification's description of
  the wire grammar);
* the header extractor behind the `parse_headers!` macro (likewise modelled
  from the specification);
* the M-SEARCH query formatting and the `search` orchestration;
* the receive loop `read_search_socket` as a function from a timed trace of
  socket events to the list of yielded stream items.

Text is handled at the level of `List Char` (`String.data`) so that every
definition evaluates inside the kernel.
-/

deriving instance DecidableEq for Except

namespace SsdpClient

/-- Split a character list at every occurrence of the separator `c`.
The result is always nonempty; separators are consumed. -/
def splitOnChar (c : Char) : List Char → List (List Char)
  | [] => [[]]
  | x :: xs =>
    match splitOnChar c xs with
    | [] => [[]]
    | h :: t => if x = c then [] :: h :: t else (x :: h) :: t

/-- Interleave the separator `c` back between the pieces. -/
def joinWithChar (c : Char) : List (List Char) → List Char
  | [] => []
  | [h] => h
  | h :: h₂ :: t => h ++ c :: joinWithChar c (h₂ :: t)

theorem splitOnChar_ne_nil (c : Char) (l : List Char) : splitOnChar c l ≠ [] := by
  cases l with
  | nil => simp [splitOnChar]
  | cons x xs =>
    simp only [splitOnChar]
    cases splitOnChar c xs with
    | nil => simp
    | cons h t =>
      by_cases hx : x = c <;> simp [hx]

theorem joinWithChar_splitOnChar (c : Char) (l : List Char) :
    joinWithChar c (splitOnChar c l) = l := by
  induction l with
  | nil => rfl
  | cons x xs ih =>
    simp only [splitOnChar]
    cases hs : splitOnChar c xs with
    | nil => exact absurd hs (splitOnChar_ne_nil c xs)
    | cons h t =>
      rw [hs] at ih
      by_cases hx : x = c
      · subst hx
        simp only [if_pos rfl, joinWithChar]
        rw [ih]
        rfl
      · simp only [if_neg hx]
        cases t with
        | nil => simpa [joinWithChar] using congrArg (x :: ·) ih
        | cons h₂ t₂ => simpa [joinWithChar] using congrArg (x :: ·) ih

/-- Error raised by `SearchTarget.decode`. -/
inductive ParseError where
  | emptyTarget
deriving DecidableEq, Repr

/-- Modelled from the spec: the `SearchTarget` value type of the re-exported
`search_target` module (not among the sources at hand): all-devices wildcard,
root-device wildcard, device and service URN tuples, and an opaque custom
target preserving the exact wire text. -/
inductive SearchTarget where
  | all
  | rootDevice
  | device (domain deviceType version : String)
  | service (domain serviceType version : String)
  | custom (text : String)
deriving DecidableEq, Repr

/-- Modelled from the spec: wire-form rendering of a `SearchTarget`
(the `Display` implementation used by `ST: {}` in the query). -/
def SearchTarget.encode : SearchTarget → String
  | .all => "ssdp:all"
  | .rootDevice => "upnp:rootdevice"
  | .device d ty v => "urn:" ++ d ++ ":device:" ++ ty ++ ":" ++ v
  | .service d ty v => "urn:" ++ d ++ ":service:" ++ ty ++ ":" ++ v
  | .custom s => s

/-- Modelled from the spec: parsing a wire-form string into a `SearchTarget`
(the `FromStr` implementation used by `st.parse()`): case-sensitive match of
the known grammars, fallback to the opaque custom variant on any other
nonempty text, `ParseError.emptyTarget` on the empty string. -/
def SearchTarget.decode (s : String) : Except ParseError SearchTarget :=
  if s = "" then .error .emptyTarget
  else if s = "ssdp:all" then .ok .all
  else if s = "upnp:rootdevice" then .ok .rootDevice
  else
    match splitOnChar ':' s.data with
    | [u, d, m, ty, v] =>
      if u = "urn".data ∧ m = "device".data then .ok (.device ⟨d⟩ ⟨ty⟩ ⟨v⟩)
      else if u = "urn".data ∧ m = "service".data then .ok (.service ⟨d⟩ ⟨ty⟩ ⟨v⟩)
      else .ok (.custom s)
    | _ => .ok (.custom s)

theorem encode_device_data (d ty v : String) :
    (SearchTarget.encode (.device d ty v)).data
      = "urn".data ++ ':' :: (d.data ++ ':' :: ("device".data ++ ':' ::
          (ty.data ++ ':' :: v.data))) := by
  simp [SearchTarget.encode, String.data_append]

theorem encode_service_data (d ty v : String) :
    (SearchTarget.encode (.service d ty v)).data
      = "urn".data ++ ':' :: (d.data ++ ':' :: ("service".data ++ ':' ::
          (ty.data ++ ':' :: v.data))) := by
  simp [SearchTarget.encode, String.data_append]

/-- Decoding never loses information: whatever `decode` accepts re-encodes to
the exact input text. -/
theorem encode_decode_id (s : String) (t : SearchTarget)
    (h : SearchTarget.decode s = Except.ok t) : t.encode = s := by
  by_cases h0 : s = ""
  · simp [SearchTarget.decode, h0] at h
  by_cases h1 : s = "ssdp:all"
  · simp [SearchTarget.decode, h0, h1] at h
    subst h1
    rw [← h]
    rfl
  by_cases h2 : s = "upnp:rootdevice"
  · simp [SearchTarget.decode, h0, h1, h2] at h
    subst h2
    rw [← h]
    rfl
  simp only [SearchTarget.decode, if_neg h0, if_neg h1, if_neg h2] at h
  have hjoin := joinWithChar_splitOnChar ':' s.data
  split at h
  case _ u d m ty v heq =>
    rw [heq] at hjoin
    simp only [joinWithChar] at hjoin
    split_ifs at h with hdev hsrv
    · obtain ⟨hu, hm⟩ := hdev
      cases h
      apply String.ext
      rw [encode_device_data, ← hjoin, hu, hm]
    · obtain ⟨hu, hm⟩ := hsrv
      cases h
      apply String.ext
      rw [encode_service_data, ← hjoin, hu, hm]
    · cases h
      rfl
  case _ =>
    cases h
    rfl

/-- Decoding is total on nonempty strings, fails exactly on the empty string,
and the opaque fallback preserves the text verbatim. -/
theorem decode_total (s : String) (h : s ≠ "") :
    ∃ t : SearchTarget, SearchTarget.decode s = Except.ok t := by
  by_cases h1 : s = "ssdp:all"
  · exact ⟨.all, by simp [SearchTarget.decode, h, h1]⟩
  by_cases h2 : s = "upnp:rootdevice"
  · exact ⟨.rootDevice, by simp [SearchTarget.decode, h, h1, h2]⟩
  simp only [SearchTarget.decode, if_neg h, if_neg h1, if_neg h2]
  split
  case _ u d m ty v heq =>
    by_cases hdev : u = "urn".data ∧ m = "device".data
    · exact ⟨_, by rw [if_pos hdev]⟩
    by_cases hsrv : u = "urn".data ∧ m = "service".data
    · exact ⟨_, by rw [if_neg hdev, if_pos hsrv]⟩
    · exact ⟨_, by rw [if_neg hdev, if_neg hsrv]⟩
  case _ =>
    exact ⟨.custom s, rfl⟩

/-- The opaque fallback is only ever produced with the input text itself. -/
theorem decode_custom_faithful (s text : String)
    (h : SearchTarget.decode s = Except.ok (.custom text)) : text = s := by
  have := encode_decode_id s (.custom text) h
  simpa [SearchTarget.encode] using this

/-- Case-insensitive equality of header names. -/
def headerNameEq (a b : List Char) : Prop :=
  a.map Char.toLower = b.map Char.toLower

instance (a b : List Char) : Decidable (headerNameEq a b) := by
  unfold headerNameEq
  infer_instance

/-- Strip surrounding whitespace (spaces, tabs, carriage control) from a
character list. -/
def trimChars (l : List Char) : List Char :=
  ((l.dropWhile Char.isWhitespace).reverse.dropWhile Char.isWhitespace).reverse

/-- Split one line at its first colon into `(name, value)`; a line without a
colon is not a header line. -/
def splitHeaderLine (line : List Char) : Option (List Char × List Char) :=
  match splitOnChar ':' line with
  | [] => none
  | [_] => none
  | h :: t => some (h, joinWithChar ':' t)

/-- Modelled from the spec: scan the lines for the first `Name: Value` pair
whose name matches case-insensitively; the value is trimmed.  Part of the
`parse_headers!` macro, which is not among the sources at hand. -/
def findHeader (name : List Char) : List (List Char) → Option (List Char)
  | [] => none
  | line :: rest =>
    match splitHeaderLine line with
    | some (n, v) => if headerNameEq n name then some (trimChars v) else findHeader name rest
    | none => findHeader name rest

/-- Lines of a raw response text: split at every line feed; the trailing
carriage return of a CRLF pair is removed later by value trimming. -/
def textLines (text : String) : List (List Char) :=
  splitOnChar '\n' text.data

/-- First-occurrence value of one required header. -/
def getHeader (text : String) (name : String) : Option String :=
  (findHeader name.data (textLines text)).map String.mk

/-- Error raised by the header extractor. -/
inductive HeaderError where
  | missing (name : String)
deriving DecidableEq, Repr

/-- Modelled from the spec: the header extractor behind `parse_headers!`,
returning one value per requested name, in request order; the first missing
name aborts the extraction. -/
def extractHeaders (text : String) : List String → Except HeaderError (List String)
  | [] => .ok []
  | n :: ns =>
    match getHeader text n with
    | none => .error (.missing n)
    | some v =>
      match extractHeaders text ns with
      | .error e => .error e
      | .ok vs => .ok (v :: vs)

theorem extractHeaders_length (text : String) (names : List String)
    (vs : List String) (h : extractHeaders text names = Except.ok vs) :
    vs.length = names.length := by
  induction names generalizing vs with
  | nil =>
    simp only [extractHeaders] at h
    cases h
    rfl
  | cons n ns ih =>
    simp only [extractHeaders] at h
    cases hg : getHeader text n with
    | none => rw [hg] at h; cases h
    | some v =>
      rw [hg] at h
      cases he : extractHeaders text ns with
      | error e => rw [he] at h; cases h
      | ok ws =>
        rw [he] at h
        cases h
        simp [ih ws he]

theorem extractHeaders_aligned (text : String) (names : List String)
    (vs : List String) (h : extractHeaders text names = Except.ok vs)
    (i : Nat) (hi : i < names.length) (hv : i < vs.length) :
    getHeader text (names.get ⟨i, hi⟩) = some (vs.get ⟨i, hv⟩) := by
  induction names generalizing vs i with
  | nil => exact absurd hi (by simp)
  | cons n ns ih =>
    simp only [extractHeaders] at h
    cases hg : getHeader text n with
    | none => rw [hg] at h; cases h
    | some v =>
      rw [hg] at h
      cases he : extractHeaders text ns with
      | error e => rw [he] at h; cases h
      | ok ws =>
        rw [he] at h
        cases h
        cases i with
        | zero => simpa using hg
        | succ j =>
          exact ih ws he j (by simpa using hi) (by simpa using hv)

theorem extractHeaders_missing (text : String) (names : List String)
    (n : String) (hn : n ∈ names) (hg : getHeader text n = none) :
    ∃ m, extractHeaders text names = Except.error (.missing m) ∧
      getHeader text m = none := by
  induction names with
  | nil => cases hn
  | cons n₀ ns ih =>
    simp only [extractHeaders]
    cases hg0 : getHeader text n₀ with
    | none => exact ⟨n₀, rfl, hg0⟩
    | some v =>
      have hmem : n ∈ ns := by
        rcases List.mem_cons.mp hn with rfl | hmem
        · rw [hg0] at hg; cases hg
        · exact hmem
      obtain ⟨m, hm, hgm⟩ := ih hmem
      exact ⟨m, by rw [hm], hgm⟩

/-- Continuation byte of a UTF-8 sequence. -/
def isUtf8Cont (b : Nat) : Bool :=
  0x80 ≤ b && b < 0xC0

/-- Decode one UTF-8 scalar from a head byte and the following bytes,
mirroring the validation performed by `std::str::from_utf8` (rejecting
overlong forms, surrogates and values above `0x10FFFF`). -/
def utf8Step (b : Nat) (rest : List Nat) : Option (Nat × List Nat) :=
  if b < 0x80 then some (b, rest)
  else if 0xC2 ≤ b && b ≤ 0xDF then
    match rest with
    | b₂ :: r =>
      if isUtf8Cont b₂ then some ((b - 0xC0) * 0x40 + (b₂ - 0x80), r) else none
    | _ => none
  else if 0xE0 ≤ b && b ≤ 0xEF then
    match rest with
    | b₂ :: b₃ :: r =>
      let lo := if b = 0xE0 then 0xA0 else 0x80
      let hi := if b = 0xED then 0x9F else 0xBF
      if lo ≤ b₂ && b₂ ≤ hi && isUtf8Cont b₃ then
        some ((b - 0xE0) * 0x1000 + (b₂ - 0x80) * 0x40 + (b₃ - 0x80), r)
      else none
    | _ => none
  else if 0xF0 ≤ b && b ≤ 0xF4 then
    match rest with
    | b₂ :: b₃ :: b₄ :: r =>
      let lo := if b = 0xF0 then 0x90 else 0x80
      let hi := if b = 0xF4 then 0x8F else 0xBF
      if lo ≤ b₂ && b₂ ≤ hi && isUtf8Cont b₃ && isUtf8Cont b₄ then
        some ((b - 0xF0) * 0x40000 + (b₂ - 0x80) * 0x1000 + (b₃ - 0x80) * 0x40
          + (b₄ - 0x80), r)
      else none
    | _ => none
  else none

/-- Fuelled driver of the decoder; every step consumes at least the head
byte, so fuel equal to the byte count never runs out. -/
def utf8DecodeLoop : Nat → List Nat → Option (List Char)
  | _, [] => some []
  | 0, _ :: _ => none
  | fuel + 1, b :: rest =>
    match utf8Step b rest with
    | none => none
    | some (cp, r) =>
      match utf8DecodeLoop fuel r with
      | none => none
      | some cs => some (Char.ofNat cp :: cs)

/-- Decode a byte sequence as UTF-8 text, `none` on invalid input
(the model of `std::str::from_utf8`). -/
def utf8Decode (bytes : List Nat) : Option (List Char) :=
  utf8DecodeLoop bytes.length bytes

/-- Bytes of an ASCII string, for building concrete datagrams. -/
def asciiBytes (s : String) : List Nat :=
  s.data.map Char.toNat

/-- Kind of a transport-level receive error; the receive loop distinguishes
errors only by this kind. -/
inductive IoErrorKind where
  | timedOut
  | other (code : Nat)
deriving DecidableEq, Repr

/-- The crate's error type as visible in stream items: transport errors,
text-decoding failures, missing headers, and search-target parse failures. -/
inductive Error where
  | ioErr (kind : IoErrorKind)
  | utf8Error
  | headerMissing (name : String)
  | targetParse (e : ParseError)
deriving DecidableEq, Repr

/-- One parsed datagram (`SearchResponse` of `src/search/mod.rs`). -/
structure SearchResponse where
  location : String
  st : SearchTarget
  usn : String
deriving DecidableEq, Repr

/-- Per-datagram pipeline of `read_search_socket`, lines 81–92 of
`src/search/mod.rs`: UTF-8 decode, `parse_headers!(text => location, st, usn)`,
then `st.parse()`; the first failure becomes the item's error. -/
def processDatagram (bytes : List Nat) : Except Error SearchResponse :=
  match utf8Decode bytes with
  | none => .error .utf8Error
  | some chars =>
    let text : String := ⟨chars⟩
    match getHeader text "location" with
    | none => .error (.headerMissing "location")
    | some location =>
      match getHeader text "st" with
      | none => .error (.headerMissing "st")
      | some st =>
        match getHeader text "usn" with
        | none => .error (.headerMissing "usn")
        | some usn =>
          match SearchTarget.decode st with
          | .error e => .error (.targetParse e)
          | .ok target => .ok ⟨location, target, usn⟩

/-- What the transport hands one `recv_from` call: a datagram's bytes, or an
error of some kind (a timer expiry surfaces as kind `timedOut`). -/
inductive SockEvent where
  | datagram (bytes : List Nat)
  | sockError (kind : IoErrorKind)
deriving DecidableEq, Repr

/-- Build configuration selecting the truncation policy of
`handle_insufficient_buffer_size`: `debug` (`cfg(debug_assertions)`) panics,
`release` logs one warning and keeps listening. -/
inductive BuildMode where
  | debug
  | release
deriving DecidableEq, Repr

/-- Observable outcome of running the receive loop over a trace: the yielded
stream items, the number of truncation warnings logged, and whether the debug
build panicked. -/
structure RunResult where
  items : List (Except Error SearchResponse)
  warnings : Nat
  panicked : Bool
deriving DecidableEq, Repr

/-- Receive buffer capacity: `let mut buf = [0u8; 2048]`. -/
def bufSize : Nat := 2048

/-- The receive loop `read_search_socket`, embedded as a function of a timed
event trace.  Each trace entry `(delay, ev)` says that the next socket event
`ev` resolves `delay` time units after this iteration's `recv_from` began;
the loop races it against `.timeout(timeout)`, which is attached freshly to
every `recv_from` call.  An empty remaining trace means no event ever
arrives, so the timer fires. -/
def readSearchSocket (mode : BuildMode) (timeout : Nat) :
    List (Nat × SockEvent) → RunResult
  | [] => ⟨[], 0, false⟩
  | (delay, ev) :: rest =>
    if timeout ≤ delay then ⟨[], 0, false⟩
    else
      match ev with
      | .sockError .timedOut => ⟨[], 0, false⟩
      | .sockError (.other c) =>
        let r := readSearchSocket mode timeout rest
        ⟨.error (.ioErr (.other c)) :: r.items, r.warnings, r.panicked⟩
      | .datagram bytes =>
        if bytes.length = bufSize then
          match mode with
          | .debug => ⟨[], 0, true⟩
          | .release =>
            let r := readSearchSocket mode timeout rest
            ⟨r.items, r.warnings + 1, r.panicked⟩
        else
          let r := readSearchSocket mode timeout rest
          ⟨processDatagram bytes :: r.items, r.warnings, r.panicked⟩

/-- The release-mode receive loop with absolute timestamps: each yielded item
is paired with the absolute time (`now` plus the accumulated delays) at which
its datagram arrived. -/
def readSearchSocketTimed (timeout : Nat) (now : Nat) :
    List (Nat × SockEvent) → List (Nat × Except Error SearchResponse)
  | [] => []
  | (delay, ev) :: rest =>
    if timeout ≤ delay then []
    else
      match ev with
      | .sockError .timedOut => []
      | .sockError (.other c) =>
        (now + delay, .error (.ioErr (.other c)))
          :: readSearchSocketTimed timeout (now + delay) rest
      | .datagram bytes =>
        if bytes.length = bufSize then
          readSearchSocketTimed timeout (now + delay) rest
        else
          (now + delay, processDatagram bytes)
            :: readSearchSocketTimed timeout (now + delay) rest

/-- Modelled from the spec: the receive loop as §4.5 of the specification
describes it, with the timeout as one fixed overall window measured from the
first poll — an event is delivered only while the absolute clock is still
inside the window; reaching the window's end closes the stream. -/
def specWindowSocket (timeout : Nat) (now : Nat) :
    List (Nat × SockEvent) → List (Nat × Except Error SearchResponse)
  | [] => []
  | (delay, ev) :: rest =>
    if timeout ≤ now + delay then []
    else
      match ev with
      | .sockError .timedOut => []
      | .sockError (.other c) =>
        (now + delay, .error (.ioErr (.other c)))
          :: specWindowSocket timeout (now + delay) rest
      | .datagram bytes =>
        if bytes.length = bufSize then
          specWindowSocket timeout (now + delay) rest
        else
          (now + delay, processDatagram bytes)
            :: specWindowSocket timeout (now + delay) rest

/-- The outbound M-SEARCH message as formatted by `search`
(lines 59–66 of `src/search/mod.rs`). -/
def queryMessage (st : SearchTarget) (mx : Nat) : String :=
  "M-SEARCH * HTTP/1.1\r\nHost:239.255.255.250:1900\r\nMan:\"ssdp:discover\"\r\nST: "
    ++ st.encode ++ "\r\nMX: " ++ Nat.repr mx ++ "\r\n\r\n"

/-- The orchestrator `search`: bind, format, send, and only then hand back
the stream.  Bind and send outcomes are supplied by the transport
collaborator as `Option IoErrorKind` (`none` = success); on success the
result carries the sent message and the stream's parameters (its timeout and
the socket's event trace). -/
def search (bindOutcome sendOutcome : Option IoErrorKind) (st : SearchTarget)
    (timeout mx : Nat) (events : List (Nat × SockEvent)) :
    Except Error (String × Nat × List (Nat × SockEvent)) :=
  match bindOutcome with
  | some k => .error (.ioErr k)
  | none =>
    let msg := queryMessage st mx
    match sendOutcome with
    | some k => .error (.ioErr k)
    | none => .ok (msg, timeout, events)

/-- The stream item an event gives rise to, `none` when the event yields
nothing (a truncated datagram, or the timer kind that closes the stream). -/
def eventItem : SockEvent → Option (Except Error SearchResponse)
  | .datagram bytes =>
    if bytes.length = bufSize then none else some (processDatagram bytes)
  | .sockError .timedOut => none
  | .sockError (.other c) => some (.error (.ioErr (.other c)))

/-- An event keeps the loop alive when it beats its own fresh timer and is
not an error of kind `timedOut`. -/
def liveEvent (timeout : Nat) (e : Nat × SockEvent) : Bool :=
  decide (e.1 < timeout) && decide (e.2 ≠ SockEvent.sockError .timedOut)

/-- Fold one live event onto the result of the remaining trace
(release-mode policy for truncated datagrams). -/
def consEvent (ev : SockEvent) (r : RunResult) : RunResult :=
  match ev with
  | .datagram bytes =>
    if bytes.length = bufSize then ⟨r.items, r.warnings + 1, r.panicked⟩
    else ⟨processDatagram bytes :: r.items, r.warnings, r.panicked⟩
  | .sockError .timedOut => r
  | .sockError (.other c) =>
    ⟨.error (.ioErr (.other c)) :: r.items, r.warnings, r.panicked⟩

theorem readSearchSocket_release_items (timeout : Nat)
    (evs : List (Nat × SockEvent)) :
    (readSearchSocket .release timeout evs).items
      = (evs.takeWhile (liveEvent timeout)).filterMap (fun e => eventItem e.2) := by
  induction evs with
  | nil => rfl
  | cons e rest ih =>
    obtain ⟨d, ev⟩ := e
    by_cases hd : timeout ≤ d
    · have hlive : liveEvent timeout (d, ev) = false := by
        simp [liveEvent, Nat.not_lt.mpr hd]
      simp [readSearchSocket, if_pos hd, List.takeWhile_cons, hlive]
    · have hd' : d < timeout := Nat.lt_of_not_le hd
      cases ev with
      | sockError k =>
        cases k with
        | timedOut =>
          have hlive : liveEvent timeout (d, SockEvent.sockError .timedOut) = false := by
            simp [liveEvent]
          simp [readSearchSocket, if_neg hd, List.takeWhile_cons, hlive]
        | other c =>
          have hlive : liveEvent timeout (d, SockEvent.sockError (.other c)) = true := by
            simp [liveEvent, hd']
          simp [readSearchSocket, if_neg hd, List.takeWhile_cons, hlive, eventItem, ih]
      | datagram bytes =>
        have hlive : liveEvent timeout (d, SockEvent.datagram bytes) = true := by
          simp [liveEvent, hd']
        by_cases hb : bytes.length = bufSize
        · simp [readSearchSocket, if_neg hd, if_pos hb, List.takeWhile_cons, hlive,
            eventItem, ih]
        · simp [readSearchSocket, if_neg hd, if_neg hb, List.takeWhile_cons, hlive,
            eventItem, ih]

theorem readSearchSocketTimed_items (timeout : Nat) (evs : List (Nat × SockEvent)) :
    ∀ now, (readSearchSocketTimed timeout now evs).map Prod.snd
      = (readSearchSocket .release timeout evs).items := by
  induction evs with
  | nil => intro now; rfl
  | cons e rest ih =>
    intro now
    obtain ⟨d, ev⟩ := e
    by_cases hd : timeout ≤ d
    · simp [readSearchSocketTimed, readSearchSocket, if_pos hd]
    · cases ev with
      | sockError k =>
        cases k with
        | timedOut => simp [readSearchSocketTimed, readSearchSocket, if_neg hd]
        | other c => simp [readSearchSocketTimed, readSearchSocket, if_neg hd, ih]
      | datagram bytes =>
        by_cases hb : bytes.length = bufSize
        · simp [readSearchSocketTimed, readSearchSocket, if_neg hd, if_pos hb, ih]
        · simp [readSearchSocketTimed, readSearchSocket, if_neg hd, if_neg hb, ih]

theorem chain_le_cons {a : Nat} {l : List Nat} (hb : ∀ x ∈ l, a ≤ x)
    (hc : List.Chain' (· ≤ ·) l) : List.Chain' (· ≤ ·) (a :: l) := by
  cases l with
  | nil => simp
  | cons x xs => exact List.chain'_cons.mpr ⟨hb x (by simp), hc⟩

theorem readSearchSocketTimed_mono (timeout : Nat) (evs : List (Nat × SockEvent)) :
    ∀ now, List.Chain' (· ≤ ·) ((readSearchSocketTimed timeout now evs).map Prod.fst)
      ∧ ∀ p ∈ readSearchSocketTimed timeout now evs, now ≤ p.1 := by
  induction evs with
  | nil => intro now; simp [readSearchSocketTimed]
  | cons e rest ih =>
    intro now
    obtain ⟨d, ev⟩ := e
    by_cases hd : timeout ≤ d
    · simp [readSearchSocketTimed, if_pos hd]
    · have hstep : now ≤ now + d := Nat.le_add_right now d
      obtain ⟨hchain, hbound⟩ := ih (now + d)
      have hmapb : ∀ x ∈ (readSearchSocketTimed timeout (now + d) rest).map Prod.fst,
          now + d ≤ x := by
        intro x hx
        obtain ⟨p, hp, rfl⟩ := List.mem_map.mp hx
        exact hbound p hp
      have htailb : ∀ p ∈ readSearchSocketTimed timeout (now + d) rest, now ≤ p.1 :=
        fun p hp => le_trans hstep (hbound p hp)
      cases ev with
      | sockError k =>
        cases k with
        | timedOut => simp [readSearchSocketTimed, if_neg hd]
        | other c =>
          simp only [readSearchSocketTimed, if_neg hd, List.map_cons]
          refine ⟨chain_le_cons hmapb hchain, ?_⟩
          intro p hp
          rcases List.mem_cons.mp hp with rfl | hp
          · exact hstep
          · exact htailb p hp
      | datagram bytes =>
        by_cases hb : bytes.length = bufSize
        · simp only [readSearchSocketTimed, if_neg hd, if_pos hb]
          exact ⟨hchain, htailb⟩
        · simp only [readSearchSocketTimed, if_neg hd, if_neg hb, List.map_cons]
          refine ⟨chain_le_cons hmapb hchain, ?_⟩
          intro p hp
          rcases List.mem_cons.mp hp with rfl | hp
          · exact hstep
          · exact htailb p hp

/-- A well-formed sample response datagram, used for concrete runs. -/
def sampleText : String :=
  "LOCATION: http://x\r\nST: ssdp:all\r\nUSN: uuid:123\r\n\r\n"

/-- The sample response datagram's bytes. -/
def sampleBytes : List Nat :=
  asciiBytes sampleText

/-- The parse of the sample datagram. -/
def sampleResponse : SearchResponse :=
  ⟨"http://x", .all, "uuid:123"⟩

/-- Claim C1, counterexample to the fixed-overall-window reading: with
`timeout = 3` and two valid datagrams each arriving 2 units into their own
receive, the code yields the second item at absolute time 4, after the
claimed total window of 3 has already elapsed (the spec-described
fixed-window loop would have closed after one item). -/
theorem c1_overall_window_counterexample :
    readSearchSocketTimed 3 0
        [(2, .datagram sampleBytes), (2, .datagram sampleBytes)]
      = [(2, Except.ok sampleResponse), (4, Except.ok sampleResponse)] ∧
    3 < 4 ∧
    specWindowSocket 3 0
        [(2, .datagram sampleBytes), (2, .datagram sampleBytes)]
      = [(2, Except.ok sampleResponse)] :=
  ⟨by decide, by decide, by decide⟩

/-- Claim C1 (amended): `.timeout(timeout)` is attached to every `recv_from`
call separately, so the window is per receive, not overall: an iteration
whose event takes the full `timeout` (or that returns an error of kind
`timedOut`) transitions the stream to `Closed` with no item, no warning and
no panic, regardless of how many datagrams arrived before; every other event
is folded onto the run of the remaining trace, which again enjoys the full
`timeout`. -/
theorem c1_per_receive_timeout (timeout d : Nat) (ev : SockEvent)
    (rest : List (Nat × SockEvent)) :
    readSearchSocket .release timeout ((d, ev) :: rest)
      = if timeout ≤ d ∨ ev = SockEvent.sockError .timedOut then ⟨[], 0, false⟩
        else consEvent ev (readSearchSocket .release timeout rest) := by
  by_cases hd : timeout ≤ d
  · simp [readSearchSocket, if_pos hd, hd]
  · cases ev with
    | sockError k =>
      cases k with
      | timedOut => simp [readSearchSocket, if_neg hd]
      | other c => simp [readSearchSocket, if_neg hd, hd, consEvent]
    | datagram bytes =>
      by_cases hb : bytes.length = bufSize
      · simp [readSearchSocket, if_neg hd, hd, if_pos hb, consEvent]
      · simp [readSearchSocket, if_neg hd, hd, if_neg hb, consEvent]

/-- Claim C2: after the stream exists, each per-datagram failure — invalid
UTF-8, a missing required header, a failed search-target parse, or a
transport error of any kind other than `timedOut` — becomes exactly one
error item prepended to the unchanged run of the remaining trace, while an
error of kind `timedOut` terminates the stream with no error item. -/
theorem c2_error_isolation (timeout d c : Nat) (rest : List (Nat × SockEvent))
    (bytes : List Nat) (e : Error) (hd : d < timeout)
    (hb : bytes.length ≠ bufSize) (he : processDatagram bytes = Except.error e) :
    (readSearchSocket .release timeout ((d, .datagram bytes) :: rest)).items
        = Except.error e :: (readSearchSocket .release timeout rest).items ∧
    (readSearchSocket .release timeout ((d, .sockError (.other c)) :: rest)).items
        = Except.error (Error.ioErr (.other c))
            :: (readSearchSocket .release timeout rest).items ∧
    readSearchSocket .release timeout ((d, .sockError .timedOut) :: rest)
        = ⟨[], 0, false⟩ ∧
    processDatagram [0xFF] = Except.error .utf8Error ∧
    processDatagram (asciiBytes "hello")
        = Except.error (.headerMissing "location") ∧
    processDatagram (asciiBytes "LOCATION: x\r\nST: \r\nUSN: u\r\n")
        = Except.error (.targetParse .emptyTarget) := by
  have hd' : ¬ timeout ≤ d := Nat.not_le.mpr hd
  refine ⟨?_, ?_, ?_, by decide, by decide, by decide⟩
  · simp [readSearchSocket, if_neg hd', if_neg hb, he]
  · simp [readSearchSocket, if_neg hd']
  · simp [readSearchSocket, if_neg hd']

/-- Claim C2, witness at `timeout = 1`, an undecodable one-byte datagram and
transport error code 7. -/
theorem c2_error_isolation_witness :
    (readSearchSocket .release 1 [(0, .datagram [0xFF])]).items
        = Except.error .utf8Error :: (readSearchSocket .release 1 []).items ∧
    (readSearchSocket .release 1 [(0, .sockError (.other 7))]).items
        = Except.error (Error.ioErr (.other 7))
            :: (readSearchSocket .release 1 []).items ∧
    readSearchSocket .release 1 [(0, .sockError .timedOut)] = ⟨[], 0, false⟩ ∧
    processDatagram [0xFF] = Except.error .utf8Error ∧
    processDatagram (asciiBytes "hello")
        = Except.error (.headerMissing "location") ∧
    processDatagram (asciiBytes "LOCATION: x\r\nST: \r\nUSN: u\r\n")
        = Except.error (.targetParse .emptyTarget) :=
  c2_error_isolation 1 0 7 [] [0xFF] .utf8Error (by decide) (by decide) (by decide)

/-- Claim C5: a datagram that exactly fills the 2048-byte buffer takes the
truncation path of `handle_insufficient_buffer_size`: the debug build panics
at once (no items, no warning), while the release build logs one warning,
emits no item for that datagram, and continues with the remaining trace
unchanged. -/
theorem c5_truncation_policy (timeout d : Nat) (rest : List (Nat × SockEvent))
    (bytes : List Nat) (hd : d < timeout) (hb : bytes.length = bufSize) :
    readSearchSocket .debug timeout ((d, .datagram bytes) :: rest)
        = ⟨[], 0, true⟩ ∧
    readSearchSocket .release timeout ((d, .datagram bytes) :: rest)
        = ⟨(readSearchSocket .release timeout rest).items,
           (readSearchSocket .release timeout rest).warnings + 1,
           (readSearchSocket .release timeout rest).panicked⟩ := by
  have hd' : ¬ timeout ≤ d := Nat.not_le.mpr hd
  constructor
  · simp [readSearchSocket, if_neg hd', if_pos hb]
  · simp [readSearchSocket, if_neg hd', if_pos hb]

/-- Claim C5, witness: a buffer-filling datagram panics the debug build and
is skipped with one warning by the release build, after which the following
valid datagram still yields its item. -/
theorem c5_truncation_policy_witness :
    (readSearchSocket .debug 1 [(0, .datagram (List.replicate bufSize 65)),
          (0, .datagram sampleBytes)]
        = ⟨[], 0, true⟩ ∧
      readSearchSocket .release 1 [(0, .datagram (List.replicate bufSize 65)),
          (0, .datagram sampleBytes)]
        = ⟨(readSearchSocket .release 1 [(0, .datagram sampleBytes)]).items,
           (readSearchSocket .release 1 [(0, .datagram sampleBytes)]).warnings + 1,
           (readSearchSocket .release 1 [(0, .datagram sampleBytes)]).panicked⟩) ∧
    (readSearchSocket .release 1 [(0, .datagram sampleBytes)]).items
        = [Except.ok sampleResponse] :=
  ⟨c5_truncation_policy 1 0 [(0, .datagram sampleBytes)]
      (List.replicate bufSize 65) (by decide) (by simp),
   by decide⟩

/-- Claim C10: the loop classifies receive errors by kind alone: an error of
kind `timedOut` arriving well before any timer could have fired still closes
the stream normally (no error item, in both build modes), while an error of
any other kind becomes one error item and the loop keeps listening. -/
theorem c10_timeout_kind (timeout d c : Nat) (rest : List (Nat × SockEvent))
    (hd : d < timeout) :
    readSearchSocket .release timeout ((d, .sockError .timedOut) :: rest)
        = ⟨[], 0, false⟩ ∧
    readSearchSocket .debug timeout ((d, .sockError .timedOut) :: rest)
        = ⟨[], 0, false⟩ ∧
    (readSearchSocket .release timeout ((d, .sockError (.other c)) :: rest)).items
        = Except.error (Error.ioErr (.other c))
            :: (readSearchSocket .release timeout rest).items := by
  have hd' : ¬ timeout ≤ d := Nat.not_le.mpr hd
  refine ⟨?_, ?_, ?_⟩ <;> simp [readSearchSocket, if_neg hd']

/-- Claim C10, witness: an error of kind `timedOut` delivered immediately
(time 0, far below `timeout = 9`) closes the stream with no item, while an
error of kind `other 3` yields one error item. -/
theorem c10_timeout_kind_witness :
    readSearchSocket .release 9 [(0, .sockError .timedOut),
        (0, .datagram sampleBytes)] = ⟨[], 0, false⟩ ∧
    readSearchSocket .debug 9 [(0, .sockError .timedOut),
        (0, .datagram sampleBytes)] = ⟨[], 0, false⟩ ∧
    (readSearchSocket .release 9 [(0, .sockError (.other 3)),
        (0, .datagram sampleBytes)]).items
      = Except.error (Error.ioErr (.other 3))
          :: (readSearchSocket .release 9 [(0, .datagram sampleBytes)]).items :=
  c10_timeout_kind 9 0 3 [(0, .datagram sampleBytes)] (by decide)

/-- Claim C9: items are exactly the per-event items of the processed prefix
of the trace, in trace order (`filterMap` preserves order: the item of an
earlier datagram precedes the item of a later one); the timestamped run
yields the same items, and its timestamps are nondecreasing. -/
theorem c9_arrival_order (timeout now : Nat) (evs : List (Nat × SockEvent)) :
    (readSearchSocket .release timeout evs).items
        = (evs.takeWhile (liveEvent timeout)).filterMap (fun e => eventItem e.2) ∧
    (readSearchSocketTimed timeout now evs).map Prod.snd
        = (readSearchSocket .release timeout evs).items ∧
    List.Chain' (· ≤ ·) ((readSearchSocketTimed timeout now evs).map Prod.fst) :=
  ⟨readSearchSocket_release_items timeout evs,
   readSearchSocketTimed_items timeout evs now,
   (readSearchSocketTimed_mono timeout evs now).1⟩

/-- Claim C8: a bind failure, or a send failure after a successful bind,
surfaces as `Error.ioErr` and aborts `search` before any stream exists; on
success the caller receives the stream bound to the socket whose query — the
formatted M-SEARCH message — was already sent. -/
theorem c8_search_abort (k : IoErrorKind) (sendOutcome : Option IoErrorKind)
    (st : SearchTarget) (timeout mx : Nat) (evs : List (Nat × SockEvent)) :
    search (some k) sendOutcome st timeout mx evs = Except.error (.ioErr k) ∧
    search none (some k) st timeout mx evs = Except.error (.ioErr k) ∧
    search none none st timeout mx evs
        = Except.ok (queryMessage st mx, timeout, evs) := by
  refine ⟨rfl, rfl, rfl⟩

/-- Claim C4: the query encoder renders exactly the five CRLF-terminated
lines with the encoded target after `ST: `, the decimal `mx` after `MX: `
and the closing blank line; at the root-device wildcard and `mx = 3` this is
the exact byte string of the specification. -/
theorem c4_query_format :
    queryMessage .rootDevice 3
      = "M-SEARCH * HTTP/1.1\r\nHost:239.255.255.250:1900\r\nMan:\"ssdp:discover\"\r\nST: upnp:rootdevice\r\nMX: 3\r\n\r\n" ∧
    ∀ (st : SearchTarget) (mx : Nat),
      queryMessage st mx
        = "M-SEARCH * HTTP/1.1\r\nHost:239.255.255.250:1900\r\nMan:\"ssdp:discover\"\r\nST: "
            ++ st.encode ++ "\r\nMX: " ++ Nat.repr mx ++ "\r\n\r\n" :=
  ⟨rfl, fun _ _ => rfl⟩

/-- Claim C3: whatever `decode` accepts, `encode` maps back to the exact
input text — in particular every well-known wire form (wildcards and URN
forms) round-trips through `decode` then `encode` unchanged. -/
theorem c3_encode_decode_roundtrip (s : String) (t : SearchTarget)
    (h : SearchTarget.decode s = Except.ok t) : SearchTarget.encode t = s :=
  encode_decode_id s t h

/-- Claim C3, witness at a device URN. -/
theorem c3_encode_decode_roundtrip_witness :
    SearchTarget.encode (.device "schemas-upnp-org" "ZonePlayer" "1")
      = "urn:schemas-upnp-org:device:ZonePlayer:1" :=
  c3_encode_decode_roundtrip "urn:schemas-upnp-org:device:ZonePlayer:1"
    (.device "schemas-upnp-org" "ZonePlayer" "1") (by decide)

/-- Claim C6: `decode` succeeds on every nonempty string; the known wire
grammars map to their typed variants, anything else nonempty becomes the
opaque custom variant preserving the text verbatim, and only the empty
string fails, with `ParseError.emptyTarget`. -/
theorem c6_decode_totality (s : String) (h : s ≠ "") :
    (∃ t, SearchTarget.decode s = Except.ok t) ∧
    SearchTarget.decode "" = Except.error .emptyTarget ∧
    SearchTarget.decode "ssdp:all" = Except.ok .all ∧
    SearchTarget.decode "upnp:rootdevice" = Except.ok .rootDevice ∧
    SearchTarget.decode "urn:schemas-upnp-org:device:ZonePlayer:1"
        = Except.ok (.device "schemas-upnp-org" "ZonePlayer" "1") ∧
    SearchTarget.decode "urn:schemas-upnp-org:service:AVTransport:1"
        = Except.ok (.service "schemas-upnp-org" "AVTransport" "1") ∧
    SearchTarget.decode "uuid:2f402f80-da50-11e1-9b23-000000000000"
        = Except.ok (.custom "uuid:2f402f80-da50-11e1-9b23-000000000000") ∧
    (∀ s' t', SearchTarget.decode s' = Except.ok (.custom t') → t' = s') :=
  ⟨decode_total s h, by decide, by decide, by decide, by decide, by decide,
   by decide, fun s' t' h' => decode_custom_faithful s' t' h'⟩

/-- Claim C6, witness at the nonempty string `"x"`. -/
theorem c6_decode_totality_witness :
    (∃ t, SearchTarget.decode "x" = Except.ok t) ∧
    SearchTarget.decode "" = Except.error .emptyTarget ∧
    SearchTarget.decode "ssdp:all" = Except.ok .all ∧
    SearchTarget.decode "upnp:rootdevice" = Except.ok .rootDevice ∧
    SearchTarget.decode "urn:schemas-upnp-org:device:ZonePlayer:1"
        = Except.ok (.device "schemas-upnp-org" "ZonePlayer" "1") ∧
    SearchTarget.decode "urn:schemas-upnp-org:service:AVTransport:1"
        = Except.ok (.service "schemas-upnp-org" "AVTransport" "1") ∧
    SearchTarget.decode "uuid:2f402f80-da50-11e1-9b23-000000000000"
        = Except.ok (.custom "uuid:2f402f80-da50-11e1-9b23-000000000000") ∧
    (∀ s' t', SearchTarget.decode s' = Except.ok (.custom t') → t' = s') :=
  c6_decode_totality "x" (by decide)

/-- Claim C7: a successful extraction returns one value per requested name,
positionally aligned, each value being the trimmed first occurrence of its
case-insensitively matched name; a name that never appears makes the
extraction fail with `missing`; concrete runs exercise the spec's examples,
first-occurrence-wins and case-insensitivity. -/
theorem c7_header_extraction (text : String) (names vs : List String)
    (h : extractHeaders text names = Except.ok vs) :
    vs.length = names.length ∧
    (∀ i (hi : i < names.length) (hv : i < vs.length),
        getHeader text (names.get ⟨i, hi⟩) = some (vs.get ⟨i, hv⟩)) ∧
    (∀ (text₂ : String) (names₂ : List String) (n : String), n ∈ names₂ →
        getHeader text₂ n = none →
        ∃ m, extractHeaders text₂ names₂ = Except.error (.missing m) ∧
          getHeader text₂ m = none) ∧
    extractHeaders "LOCATION: http://x\r\nST: ssdp:all\r\nUSN: uuid:123\r\n\r\n"
        ["location", "st", "usn"]
      = Except.ok ["http://x", "ssdp:all", "uuid:123"] ∧
    extractHeaders "LOCATION: http://x\r\nST: ssdp:all\r\n\r\n"
        ["location", "st", "usn"]
      = Except.error (.missing "usn") ∧
    getHeader "ST: first\r\nST: second\r\n" "st" = some "first" ∧
    getHeader "sT: MixedCase\r\n" "st" = some "MixedCase" :=
  ⟨extractHeaders_length text names vs h,
   fun i hi hv => extractHeaders_aligned text names vs h i hi hv,
   fun text₂ names₂ n hn hg => extractHeaders_missing text₂ names₂ n hn hg,
   by decide, by decide, by decide, by decide⟩

/-- Claim C7, witness at the spec's example text and request list. -/
theorem c7_header_extraction_witness :
    (["http://x", "ssdp:all", "uuid:123"] : List String).length
        = (["location", "st", "usn"] : List String).length ∧
    (∀ i (hi : i < (["location", "st", "usn"] : List String).length)
        (hv : i < (["http://x", "ssdp:all", "uuid:123"] : List String).length),
        getHeader "LOCATION: http://x\r\nST: ssdp:all\r\nUSN: uuid:123\r\n\r\n"
            ((["location", "st", "usn"] : List String).get ⟨i, hi⟩)
          = some ((["http://x", "ssdp:all", "uuid:123"] : List String).get ⟨i, hv⟩)) ∧
    (∀ (text₂ : String) (names₂ : List String) (n : String), n ∈ names₂ →
        getHeader text₂ n = none →
        ∃ m, extractHeaders text₂ names₂ = Except.error (.missing m) ∧
          getHeader text₂ m = none) ∧
    extractHeaders "LOCATION: http://x\r\nST: ssdp:all\r\nUSN: uuid:123\r\n\r\n"
        ["location", "st", "usn"]
      = Except.ok ["http://x", "ssdp:all", "uuid:123"] ∧
    extractHeaders "LOCATION: http://x\r\nST: ssdp:all\r\n\r\n"
        ["location", "st", "usn"]
      = Except.error (.missing "usn") ∧
    getHeader "ST: first\r\nST: second\r\n" "st" = some "first" ∧
    getHeader "sT: MixedCase\r\n" "st" = some "MixedCase" :=
  c7_header_extraction "LOCATION: http://x\r\nST: ssdp:all\r\nUSN: uuid:123\r\n\r\n"
    ["location", "st", "usn"] ["http://x", "ssdp:all", "uuid:123"] (by decide)

end SsdpClient
